import Mathlib

/-!
# kext_tools: `utility.c` helpers and the `kclist` module resolver

A shallow embedding of

* `check_file`, `addKextsToManager` and `fork_program` from `utility.c`;
* the prelinked-kext listing declared in `kclist_main.h`
  (`listPrelinkedKexts`, `printKextInfo`, `KclistArgs`), whose bodies live in
  `kclist_main.c` and are modelled from the written specification.

System calls and framework calls are not executed: each function takes the
outcomes of the calls it makes as explicit inputs and threads its local
variables as explicit state.
-/

namespace KextTools

/-! ## `check_file` -/

/-- File-type mask of `st_mode`, `S_IFMT` in `<sys/stat.h>` (octal 0170000). -/
def S_IFMT : Nat := 0o170000

/-- Regular-file type code, `S_IFREG` in `<sys/stat.h>` (octal 0100000). -/
def S_IFREG : Nat := 0o100000

/-- Socket type code, `S_IFSOCK` in `<sys/stat.h>` (octal 0140000). -/
def S_IFSOCK : Nat := 0o140000

/-- Symbolic-link type code, `S_IFLNK` in `<sys/stat.h>` (octal 0120000). -/
def S_IFLNK : Nat := 0o120000

/-- Directory type code, `S_IFDIR` in `<sys/stat.h>` (octal 0040000). -/
def S_IFDIR : Nat := 0o040000

/-- Read-permission request for `access(2)`, `R_OK` in `<unistd.h>`. -/
def R_OK : Nat := 4

/-- The part of the file system `check_file` looks at: what `stat(2)` stores in
`stat_buf.st_mode` for a path (`none` when `stat` returns non-zero) and whether
`access(2)` returns 0 for a path and a mode. -/
structure FileSystem where
  stat : String → Option Nat
  access : String → Nat → Bool

/-- The function `check_file` of `utility.c`: the three tests in source order, each
failing test setting `result = false` and jumping to `finish`. -/
def check_file (fs : FileSystem) (filename : String) : Bool :=
  match fs.stat filename with
  | none => false
  | some st_mode =>
    if (st_mode &&& S_IFREG) = 0 then false
    else if fs.access filename R_OK = false then false
    else true

/-- The file-type bits of `st_mode` are those of a regular file: the test that the
macro `S_ISREG` of `<sys/stat.h>` performs, `(m & S_IFMT) == S_IFREG`. -/
def isRegularFile (st_mode : Nat) : Bool :=
  (st_mode &&& S_IFMT) == S_IFREG

/-- A file system holding one entry, a socket at `/var/run/kextd.sock` with permission
bits 0644 that the caller may read. -/
def socketFS : FileSystem where
  stat := fun p => if p = "/var/run/kextd.sock" then some (S_IFSOCK ||| 0o644) else none
  access := fun p _ => p = "/var/run/kextd.sock"

/-! ## `fork_program` -/

/-- The macro `WEXITSTATUS` of `<sys/wait.h>`, `((x >> 8) & 0xff)` on an `int`:
an arithmetic shift right by eight bits, then the low eight bits. -/
def WEXITSTATUS (status : Int) : Int :=
  (Int.shiftRight status 8) % 256

/-- Outcomes of the calls `fork_program` makes, as seen by the process that is
executing the function: the value `fork()` returned to it, the value `daemon(0, 0)`
returns (child only), and the value `waitpid` stores in `status` (parent only). -/
structure ForkOutcome where
  forkRet : Int
  daemonRet : Int
  status : Int

/-- The function `fork_program` of `utility.c`, for the process executing it. The value
is `none` where the process never returns from the function (it reaches `execv`, and
`exit(1)` should `execv` return). -/
def fork_program (env : ForkOutcome) (delay : Int) (wait : Bool) : Option Int :=
  let result : Int := -2
  if env.forkRet = -1 then
    some result
  else if env.forkRet = 0 then
    if !wait then
      let result := env.daemonRet
      if result = -1 then some result
      else if delay ≠ 0 then none else none
    else if delay ≠ 0 then none else none
  else
    let status := WEXITSTATUS env.status
    if wait then some status
    else if status ≠ 0 then some (-1)
    else some env.forkRet

/-! ## `addKextsToManager` -/

/-- The value `kKXKextManagerErrorNone` of `KXKextManagerError`. -/
def kKXKextManagerErrorNone : Nat := 0

/-- One entry of `kextNames` together with the outcomes of the calls the loop body makes
for it: whether `CFURLCreateWithFileSystemPath` returns a URL, whether
`CFStringGetCString` succeeds, the `KXKextManagerError` that
`KXKextManagerAddKextWithURL` returns, and what that call stores through `&theKext`
(`none`: nothing, `some b`: a pointer, `b` telling whether it is non-NULL). -/
structure KextStep where
  kextName : String
  urlCreated : Bool
  gotCString : Bool
  kxresult : Nat
  kextStored : Option Bool

/-- How one pass through the loop body ended. -/
inductive StepEvent where
  | urlFailed
  | cstringFailed
  | addFailed
  | added
  deriving DecidableEq, Repr

/-- Local variables of `addKextsToManager` that outlive one pass of the loop, the
caller's `kextNamesToUse` (`none` for a NULL array), and the log of passes made. -/
structure AddState where
  result : Int
  theKext : Bool
  kextNamesToUse : Option (List String)
  events : List StepEvent

/-- The `for` loop of `addKextsToManager`, from the entry under `i` to the end of the
array or to the first `goto finish`. -/
def addKextsLoop (do_tests : Bool) : List KextStep → AddState → AddState
  | [], st => st
  | k :: rest, st =>
    if !k.urlCreated then
      { st with result := -1, events := st.events ++ [StepEvent.urlFailed] }
    else if !k.gotCString then
      { st with result := -1, events := st.events ++ [StepEvent.cstringFailed] }
    else
      let theKext := match k.kextStored with
        | some b => b
        | none => st.theKext
      let failed := k.kxresult != kKXKextManagerErrorNone
      let result := if failed then 0 else st.result
      let names := match st.kextNamesToUse with
        | some names =>
          if theKext && (k.kxresult == kKXKextManagerErrorNone || do_tests) then
            some (names ++ [k.kextName])
          else some names
        | none => none
      addKextsLoop do_tests rest
        { result := result, theKext := theKext, kextNamesToUse := names,
          events := st.events ++ [if failed then StepEvent.addFailed else StepEvent.added] }

/-- The function `addKextsToManager` of `utility.c`: `result` starts at 1, `theKext` at
NULL, and the loop runs over `kextNames`. -/
def addKextsToManager (kextNames : List KextStep) (kextNamesToUse : Option (List String))
    (do_tests : Bool) : AddState :=
  addKextsLoop do_tests kextNames
    { result := 1, theKext := false, kextNamesToUse := kextNamesToUse, events := [] }

/-- The entry makes the loop leave through `goto finish` with `result = -1`. -/
def KextStep.fatal (k : KextStep) : Bool :=
  !k.urlCreated || !k.gotCString

/-- How the pass for an entry ends when the loop reaches it. -/
def KextStep.event (k : KextStep) : StepEvent :=
  if !k.urlCreated then StepEvent.urlFailed
  else if !k.gotCString then StepEvent.cstringFailed
  else if k.kxresult != kKXKextManagerErrorNone then StepEvent.addFailed
  else StepEvent.added

/-- The events of a run over the entries: one per entry, up to and including the first
fatal one. -/
def eventsOf : List KextStep → List StepEvent
  | [] => []
  | k :: rest => if k.fatal then [k.event] else k.event :: eventsOf rest

/-- A log holds a program-fatal event. -/
def hasFatal (es : List StepEvent) : Bool :=
  es.contains StepEvent.urlFailed || es.contains StepEvent.cstringFailed

/-! ## Module Resolver (`listPrelinkedKexts`, `printKextInfo`) -/

/-- Modelled from the spec: the region record of the data model (section 3), whose
fields `listPrelinkedKexts` receives as `prelinkTextBytes`, `prelinkTextSourceAddress`
and `prelinkTextSourceSize`; the body of `listPrelinkedKexts` (`kclist_main.c`) is not
among the sources. A region has a file offset, a virtual-address base and a byte size. -/
structure Region where
  offset : Nat
  virtualAddressBase : Nat
  size : Nat

/-- Modelled from the spec: one catalog record (section 3), the `kextPlist` that
`printKextInfo` receives; the code that decodes it (`kclist_main.c`) is not among the
sources. It holds a bundle identifier, a version string, the declared load virtual
address and the declared byte size. -/
structure ModuleDescriptor where
  identifier : String
  version : String
  loadAddress : Nat
  size : Nat

/-- Modelled from the spec: the resolver's output (section 3), built in the missing
`kclist_main.c`: the descriptor, its offset relative to the region's virtual-address
base, the validity flag, the absolute half-open byte range that was read (none for an
invalid module) and the build identifier extracted from it, if any. -/
structure ResolvedModule where
  descriptor : ModuleDescriptor
  relativeOffset : Int
  valid : Bool
  byteRange : Option (Nat × Nat)
  buildIdentifier : Option (List Nat)

/-- Modelled from the spec: the Module Resolver of section 4.4, the per-kext step of
`listPrelinkedKexts` whose body (`kclist_main.c`) is not among the sources.
`relativeOffset = descriptor.loadAddress - prelinkText.virtualAddressBase`; if
`relativeOffset < 0` or `relativeOffset + descriptor.size > prelinkText.size` the module
is marked invalid and header extraction is skipped; otherwise `descriptor.size` bytes are
read at `prelinkText.offset + relativeOffset`, and a build identifier is extracted from
them when the declared size is non-zero and a recognizable header is present. The
header format is not part of the spec, so the extraction is the parameter
`extractBuildIdentifier`. -/
def resolveModule (extractBuildIdentifier : List Nat → Option (List Nat))
    (sliceBytes : List Nat) (prelinkText : Region) (descriptor : ModuleDescriptor) :
    ResolvedModule :=
  let relativeOffset : Int := (descriptor.loadAddress : Int) - prelinkText.virtualAddressBase
  if relativeOffset < 0 ∨ relativeOffset + descriptor.size > prelinkText.size then
    { descriptor := descriptor, relativeOffset := relativeOffset, valid := false,
      byteRange := none, buildIdentifier := none }
  else
    let start : Nat := prelinkText.offset + relativeOffset.toNat
    let bytes := (sliceBytes.drop start).take descriptor.size
    { descriptor := descriptor, relativeOffset := relativeOffset, valid := true,
      byteRange := some (start, start + descriptor.size),
      buildIdentifier :=
        if descriptor.size ≠ 0 then extractBuildIdentifier bytes else none }

/-- A header recognizer for examples: the range starts with the byte 0xCF and the
identifier is the sixteen bytes after it. -/
def exampleExtract (bytes : List Nat) : Option (List Nat) :=
  match bytes with
  | 0xCF :: rest => if 16 ≤ rest.length then some (rest.take 16) else none
  | _ => none

/-- The region of the spec's example: base 0x1000, size 0x500, at file offset 0x1000. -/
def exampleRegion : Region := { offset := 0x1000, virtualAddressBase := 0x1000, size := 0x500 }

/-- The descriptor of the spec's example: load address 0x1010, size 0x20. -/
def exampleDescriptor : ModuleDescriptor :=
  { identifier := "com.example.driver", version := "1.0", loadAddress := 0x1010, size := 0x20 }

/-! ## Container Reader (architecture selection, `KclistArgs.archInfo`) -/

/-- Modelled from the spec: an architecture tag (section 3), CPU type and subtype, the
content of `KclistArgs.archInfo`; the code that reads it (`kclist_main.c`) is not among
the sources. -/
structure ArchTag where
  cpuType : Nat
  cpuSubtype : Nat
  deriving DecidableEq, Repr

/-- Modelled from the spec: one architecture slice (section 3): architecture tag, byte
offset into the container and byte length; the code that parses slices
(`kclist_main.c`) is not among the sources. -/
structure Slice where
  arch : ArchTag
  offset : Nat
  length : Nat
  deriving DecidableEq, Repr

/-- Modelled from the spec: the header kind that the container's magic announces
(section 4.1), read by the missing `kclist_main.c`: a single-slice marker or a
multi-slice marker. -/
inductive HeaderKind where
  | singleSlice
  | multiSlice
  deriving DecidableEq, Repr

/-- Modelled from the spec: the loaded container (section 3), built by the missing
`kclist_main.c`: byte length, header kind, the architecture its own header declares,
and the parsed slice table (empty for a single-slice container). -/
structure Container where
  byteLength : Nat
  headerKind : HeaderKind
  headerArch : ArchTag
  sliceTable : List Slice

/-- Modelled from the spec: the failures of architecture selection (section 7), raised by
the missing `kclist_main.c`. -/
inductive SelectionError where
  | ArchitectureNotFound
  | ArchitectureAmbiguous
  deriving DecidableEq, Repr

/-- Modelled from the spec: the slice spanning the whole file that section 4.1
synthesizes for a single-slice marker (the code, `kclist_main.c`, is not among the
sources). -/
def Container.wholeFile (c : Container) : Slice :=
  { arch := c.headerArch, offset := 0, length := c.byteLength }

/-- Modelled from the spec: the slices of a container (sections 3 and 4.1), computed in
the missing `kclist_main.c`: the parsed table under a multi-slice marker, one slice
spanning the whole file under a single-slice marker, and also for an empty list
("empty list ⇒ single implicit slice = whole file"). -/
def Container.slices (c : Container) : List Slice :=
  match c.headerKind, c.sliceTable with
  | HeaderKind.singleSlice, _ => [c.wholeFile]
  | HeaderKind.multiSlice, [] => [c.wholeFile]
  | HeaderKind.multiSlice, s :: rest => s :: rest

/-- Modelled from the spec: architecture selection of the Container Reader (section
4.1), done in the missing `kclist_main.c` from `KclistArgs.archInfo`: with a requested
tag, the exact match or `ArchitectureNotFound`; with none, the only slice of a
single-entry table, or `ArchitectureAmbiguous` when several slices exist. -/
def selectSlice (requested : Option ArchTag) (c : Container) : Except SelectionError Slice :=
  match requested with
  | some tag =>
    match c.slices.find? (fun s => s.arch = tag) with
    | some s => Except.ok s
    | none => Except.error SelectionError.ArchitectureNotFound
  | none =>
    match c.slices with
    | [] => Except.error SelectionError.ArchitectureNotFound
    | [s] => Except.ok s
    | _ :: _ :: _ => Except.error SelectionError.ArchitectureAmbiguous

end KextTools

namespace KextTools

/-! ## `check_file` and `fork_program` -/

/-- The code's behaviour, for comparison with its header comment: `check_file` is true
exactly when `stat` succeeds, the bit `S_IFREG` is set in `st_mode`, and the file is
readable. -/
theorem check_file_iff (fs : FileSystem) (filename : String) :
    check_file fs filename = true ↔
      ∃ m, fs.stat filename = some m ∧ (m &&& S_IFREG) ≠ 0 ∧
        fs.access filename R_OK = true := by
  unfold check_file
  cases h : fs.stat filename with
  | none => simp
  | some m =>
    by_cases h1 : (m &&& S_IFREG) = 0
    · simp [h1]
    · cases h2 : fs.access filename R_OK <;> simp [h1]

/-- Claim C6, at a readable socket: `check_file` answers true although `stat` reports
the file type of a socket, which is not that of a regular file. -/
theorem check_file_accepts_socket :
    socketFS.stat "/var/run/kextd.sock" = some 0o140644 ∧
    isRegularFile 0o140644 = false ∧
    (0o140644 &&& S_IFMT) = S_IFSOCK ∧
    socketFS.access "/var/run/kextd.sock" R_OK = true ∧
    check_file socketFS "/var/run/kextd.sock" = true := by
  refine ⟨?_, ?_, ?_, ?_, ?_⟩ <;> decide

/-- Claim C5: in the process that called `fork_program` (the value of `fork()` is not 0),
the result is -2 when `fork()` failed; otherwise with `wait` it is `WEXITSTATUS(status)`,
between 0 and 255, and without `wait` it is the forked pid when `WEXITSTATUS(status)` is
0 and -1 when it is not. -/
theorem fork_program_parent (env : ForkOutcome) (delay : Int) (wait : Bool)
    (hparent : env.forkRet ≠ 0) :
    (env.forkRet = -1 → fork_program env delay wait = some (-2)) ∧
    (env.forkRet ≠ -1 → wait = true →
      fork_program env delay wait = some (WEXITSTATUS env.status) ∧
        0 ≤ WEXITSTATUS env.status ∧ WEXITSTATUS env.status ≤ 255) ∧
    (env.forkRet ≠ -1 → wait = false → WEXITSTATUS env.status = 0 →
      fork_program env delay wait = some env.forkRet) ∧
    (env.forkRet ≠ -1 → wait = false → WEXITSTATUS env.status ≠ 0 →
      fork_program env delay wait = some (-1)) := by
  refine ⟨?_, ?_, ?_, ?_⟩
  · intro h
    simp [fork_program, h]
  · intro h hw
    refine ⟨by simp [fork_program, h, hparent, hw], ?_, ?_⟩
    · exact Int.emod_nonneg _ (by decide)
    · have := Int.emod_lt_of_pos (Int.shiftRight env.status 8) (show (0 : Int) < 256 by decide)
      unfold WEXITSTATUS
      omega
  · intro h hw hs
    simp [fork_program, h, hparent, hw, hs]
  · intro h hw hs
    simp [fork_program, h, hparent, hw, hs]

/-- Claim C5 at a concrete run: the child 1234 exits with status 3 (`status` is 0x0300),
so waiting yields 3. -/
theorem fork_program_parent_witness :
    fork_program ⟨1234, 0, 0x0300⟩ 0 true = some 3 ∧
    fork_program ⟨1234, 0, 0x0300⟩ 0 false = some (-1) ∧
    fork_program ⟨1234, 0, 0⟩ 0 false = some 1234 ∧
    fork_program ⟨-1, 0, 0⟩ 0 false = some (-2) := by
  have h1 := fork_program_parent ⟨1234, 0, 0x0300⟩ 0 true (by decide)
  have h2 := fork_program_parent ⟨1234, 0, 0x0300⟩ 0 false (by decide)
  have h3 := fork_program_parent ⟨1234, 0, 0⟩ 0 false (by decide)
  have h4 := fork_program_parent ⟨-1, 0, 0⟩ 0 false (by decide)
  refine ⟨?_, ?_, ?_, ?_⟩
  · exact (h1.2.1 (by decide) rfl).1
  · exact h2.2.2.2 (by decide) rfl (by decide)
  · exact h3.2.2.1 (by decide) rfl (by decide)
  · exact h4.1 rfl

/-! ## `addKextsToManager`: the loop and its log -/

/-- A log holds a fatal event exactly when one of the two fatal events is in it. -/
theorem hasFatal_iff (es : List StepEvent) :
    hasFatal es = true ↔ StepEvent.urlFailed ∈ es ∨ StepEvent.cstringFailed ∈ es := by
  simp [hasFatal]

/-- The loop appends to the log the events of the entries it runs over. -/
theorem addKextsLoop_events (do_tests : Bool) (steps : List KextStep) (st : AddState) :
    (addKextsLoop do_tests steps st).events = st.events ++ eventsOf steps := by
  induction steps generalizing st with
  | nil => simp [addKextsLoop, eventsOf]
  | cons k rest ih =>
    rcases k with ⟨n, u, c, r, ks⟩
    cases u <;> cases c <;>
      simp [addKextsLoop, eventsOf, KextStep.fatal, KextStep.event, ih]

/-- The loop's `result`: -1 after a fatal event, else 0 after a failed add, else the
value it started with. -/
theorem addKextsLoop_result (do_tests : Bool) (steps : List KextStep) (st : AddState) :
    (addKextsLoop do_tests steps st).result =
      if hasFatal (eventsOf steps) then -1
      else if StepEvent.addFailed ∈ eventsOf steps then 0
      else st.result := by
  induction steps generalizing st with
  | nil => simp [addKextsLoop, eventsOf, hasFatal]
  | cons k rest ih =>
    rcases k with ⟨n, u, c, r, ks⟩
    cases u <;> cases c <;>
      simp [addKextsLoop, eventsOf, KextStep.fatal, KextStep.event, ih, hasFatal]
    by_cases hr : r = kKXKextManagerErrorNone
    · simp [hr]
    · simp [hr]

/-- Every entry is logged as added exactly when the log holds no fatal event and no
failed add. -/
theorem eventsOf_all_added (steps : List KextStep) :
    eventsOf steps = List.replicate steps.length StepEvent.added ↔
      hasFatal (eventsOf steps) = false ∧ StepEvent.addFailed ∉ eventsOf steps := by
  induction steps with
  | nil => simp [eventsOf, hasFatal]
  | cons k rest ih =>
    rcases k with ⟨n, u, c, r, ks⟩
    simp only [hasFatal, Bool.or_eq_false_iff] at ih
    cases u <;> cases c <;>
      simp [eventsOf, KextStep.fatal, KextStep.event, hasFatal, List.replicate_succ]
    by_cases hr : r = kKXKextManagerErrorNone
    · simp [hr, ih]
    · simp [hr]

/-- An entry with no fatal entry before it is reached, and logged with its own event. -/
theorem eventsOf_getElem (steps : List KextStep) (i : Nat) (h : i < steps.length)
    (hpre : ∀ j (hj : j < i), (steps[j]).fatal = false) :
    (eventsOf steps)[i]? = some (steps[i]).event := by
  induction steps generalizing i with
  | nil => simp at h
  | cons k rest ih =>
    cases i with
    | zero =>
      by_cases hk : k.fatal <;> simp [eventsOf, hk]
    | succ i =>
      have h0 : k.fatal = false := hpre 0 (Nat.succ_pos i)
      have h' : i < rest.length := by simpa using h
      have hrest : ∀ j (hj : j < i), (rest[j]).fatal = false := by
        intro j hj
        have := hpre (j + 1) (Nat.succ_lt_succ hj)
        simpa using this
      simp [eventsOf, h0, ih i h' hrest]

/-- A fatal event ends the log. -/
theorem eventsOf_fatal_last (steps : List KextStep) (i : Nat)
    (h : (eventsOf steps)[i]? = some StepEvent.urlFailed ∨
      (eventsOf steps)[i]? = some StepEvent.cstringFailed) :
    (eventsOf steps).length = i + 1 := by
  induction steps generalizing i with
  | nil => simp [eventsOf] at h
  | cons k rest ih =>
    rcases k with ⟨n, u, c, r, ks⟩
    cases i with
    | zero =>
      cases u <;> cases c <;>
        simp [eventsOf, KextStep.fatal, KextStep.event] at h ⊢
      by_cases hr : r = kKXKextManagerErrorNone <;> simp [hr] at h
    | succ i =>
      cases u <;> cases c <;>
        simp [eventsOf, KextStep.fatal, KextStep.event] at h ⊢
      exact ih i h

/-- The log holds a fatal event exactly when some entry is fatal. -/
theorem eventsOf_hasFatal (steps : List KextStep) :
    hasFatal (eventsOf steps) = true ↔ ∃ k ∈ steps, k.fatal = true := by
  induction steps with
  | nil => simp [eventsOf, hasFatal]
  | cons k rest ih =>
    rcases k with ⟨n, u, c, r, ks⟩
    simp only [hasFatal, Bool.or_eq_true] at ih
    cases u <;> cases c <;>
      simp [eventsOf, KextStep.fatal, KextStep.event, hasFatal]
    by_cases hr : r = kKXKextManagerErrorNone
    · simpa [hr, KextStep.fatal] using ih
    · simpa [hr, KextStep.fatal] using ih

/-- Every entry is logged as added exactly when all three calls succeed for each. -/
theorem eventsOf_replicate_iff (steps : List KextStep) :
    eventsOf steps = List.replicate steps.length StepEvent.added ↔
      ∀ k ∈ steps, k.urlCreated = true ∧ k.gotCString = true ∧
        k.kxresult = kKXKextManagerErrorNone := by
  induction steps with
  | nil => simp [eventsOf]
  | cons k rest ih =>
    rcases k with ⟨n, u, c, r, ks⟩
    cases u <;> cases c <;>
      simp [eventsOf, KextStep.fatal, KextStep.event, List.replicate_succ]
    by_cases hr : r = kKXKextManagerErrorNone
    · simpa [hr] using ih
    · simp [hr]

/-- Claim C4: `addKextsToManager` returns 1 exactly when every entry of `kextNames` was
added without error, 0 exactly when some add returned an error and no program-fatal
error occurred, and -1 exactly when a URL creation or string conversion failed. An
entry is reached whenever no earlier entry was fatal (failed adds do not stop the
loop), and a fatal event is the last one. In terms of the per-entry outcomes: 1 exactly
when all three calls succeed for every entry, -1 exactly when some entry is fatal. -/
theorem addKextsToManager_result (kextNames : List KextStep)
    (kextNamesToUse : Option (List String)) (do_tests : Bool) :
    ((addKextsToManager kextNames kextNamesToUse do_tests).result = 1 ↔
      (addKextsToManager kextNames kextNamesToUse do_tests).events =
        List.replicate kextNames.length StepEvent.added) ∧
    ((addKextsToManager kextNames kextNamesToUse do_tests).result = 0 ↔
      StepEvent.addFailed ∈ (addKextsToManager kextNames kextNamesToUse do_tests).events ∧
      StepEvent.urlFailed ∉ (addKextsToManager kextNames kextNamesToUse do_tests).events ∧
      StepEvent.cstringFailed ∉
        (addKextsToManager kextNames kextNamesToUse do_tests).events) ∧
    ((addKextsToManager kextNames kextNamesToUse do_tests).result = -1 ↔
      StepEvent.urlFailed ∈ (addKextsToManager kextNames kextNamesToUse do_tests).events ∨
      StepEvent.cstringFailed ∈
        (addKextsToManager kextNames kextNamesToUse do_tests).events) ∧
    (∀ i (h : i < kextNames.length), (∀ j (hj : j < i), (kextNames[j]).fatal = false) →
      (addKextsToManager kextNames kextNamesToUse do_tests).events[i]? =
        some (kextNames[i]).event) ∧
    (∀ i, ((addKextsToManager kextNames kextNamesToUse do_tests).events[i]? =
          some StepEvent.urlFailed ∨
        (addKextsToManager kextNames kextNamesToUse do_tests).events[i]? =
          some StepEvent.cstringFailed) →
      (addKextsToManager kextNames kextNamesToUse do_tests).events.length = i + 1) ∧
    ((addKextsToManager kextNames kextNamesToUse do_tests).result = 1 ↔
      ∀ k ∈ kextNames, k.urlCreated = true ∧ k.gotCString = true ∧
        k.kxresult = kKXKextManagerErrorNone) ∧
    ((addKextsToManager kextNames kextNamesToUse do_tests).result = -1 ↔
      ∃ k ∈ kextNames, k.fatal = true) := by
  have hev : (addKextsToManager kextNames kextNamesToUse do_tests).events =
      eventsOf kextNames := by
    simp [addKextsToManager, addKextsLoop_events]
  have hres : (addKextsToManager kextNames kextNamesToUse do_tests).result =
      if hasFatal (eventsOf kextNames) then -1
      else if StepEvent.addFailed ∈ eventsOf kextNames then 0
      else 1 := by
    simp [addKextsToManager, addKextsLoop_result]
  rw [hev, hres]
  have hall := eventsOf_all_added kextNames
  have hfat := hasFatal_iff (eventsOf kextNames)
  refine ⟨?_, ?_, ?_, ?_, ?_, ?_, ?_⟩
  · rw [hall]
    by_cases hf : hasFatal (eventsOf kextNames) = true
    · simp [hf]
    · by_cases ha : StepEvent.addFailed ∈ eventsOf kextNames <;> simp [hf, ha]
  · by_cases hf : hasFatal (eventsOf kextNames) = true
    · have hf' := hfat.1 hf
      simp only [hf, if_true]
      constructor
      · intro h
        exact absurd h (by decide)
      · rintro ⟨-, h1, h2⟩
        exact absurd hf' (by tauto)
    · have hf' : ¬ (StepEvent.urlFailed ∈ eventsOf kextNames ∨
          StepEvent.cstringFailed ∈ eventsOf kextNames) := fun h => hf (hfat.2 h)
      rw [not_or] at hf'
      by_cases ha : StepEvent.addFailed ∈ eventsOf kextNames <;> simp [hf, ha, hf'.1, hf'.2]
  · rw [← hfat]
    by_cases hf : hasFatal (eventsOf kextNames) = true
    · simp [hf]
    · by_cases ha : StepEvent.addFailed ∈ eventsOf kextNames <;> simp [hf, ha]
  · exact fun i h hpre => eventsOf_getElem kextNames i h hpre
  · exact fun i h => eventsOf_fatal_last kextNames i h
  · rw [← eventsOf_replicate_iff, hall]
    by_cases hf : hasFatal (eventsOf kextNames) = true
    · simp [hf]
    · by_cases ha : StepEvent.addFailed ∈ eventsOf kextNames <;> simp [hf, ha]
  · rw [← eventsOf_hasFatal]
    by_cases hf : hasFatal (eventsOf kextNames) = true
    · simp [hf]
    · by_cases ha : StepEvent.addFailed ∈ eventsOf kextNames <;> simp [hf, ha]

/-! ## Module Resolver and Container Reader -/

/-- Claim C1: with `relativeOffset = loadAddress - virtualAddressBase`, the resolved
module is invalid whenever `relativeOffset < 0` or `relativeOffset + size` exceeds the
region's size, and a valid module's byte range starts at `offset + relativeOffset`, ends
`size` bytes later, and lies within `[offset, offset + region size)`. -/
theorem resolveModule_range (extractBuildIdentifier : List Nat → Option (List Nat))
    (sliceBytes : List Nat) (prelinkText : Region) (descriptor : ModuleDescriptor) :
    (resolveModule extractBuildIdentifier sliceBytes prelinkText descriptor).relativeOffset =
      (descriptor.loadAddress : Int) - prelinkText.virtualAddressBase ∧
    (((descriptor.loadAddress : Int) - prelinkText.virtualAddressBase < 0 ∨
        (descriptor.loadAddress : Int) - prelinkText.virtualAddressBase + descriptor.size >
          prelinkText.size) →
      (resolveModule extractBuildIdentifier sliceBytes prelinkText descriptor).valid = false) ∧
    ((resolveModule extractBuildIdentifier sliceBytes prelinkText descriptor).valid = true →
      ∃ first last : Nat,
        (resolveModule extractBuildIdentifier sliceBytes prelinkText descriptor).byteRange =
          some (first, last) ∧
        (first : Int) = prelinkText.offset +
          ((descriptor.loadAddress : Int) - prelinkText.virtualAddressBase) ∧
        last = first + descriptor.size ∧
        prelinkText.offset ≤ first ∧ last ≤ prelinkText.offset + prelinkText.size) := by
  unfold resolveModule
  by_cases h : (descriptor.loadAddress : Int) - prelinkText.virtualAddressBase < 0 ∨
      (descriptor.loadAddress : Int) - prelinkText.virtualAddressBase + descriptor.size >
        prelinkText.size
  · simp only [h, if_true]
    simp
  · simp only [h, if_false]
    refine ⟨trivial, fun hc => hc.elim, fun _ => ⟨_, _, rfl, ?_, rfl, ?_, ?_⟩⟩
    · push_neg at h
      omega
    · omega
    · push_neg at h
      omega

/-- Claim C1 at the spec's example: base 0x1000, region size 0x500, load address 0x1010
and size 0x20 give a valid module at relative offset 0x10, read from 0x1010 to 0x1030. -/
theorem resolveModule_range_witness :
    (resolveModule exampleExtract [] exampleRegion exampleDescriptor).valid = true ∧
    (resolveModule exampleExtract [] exampleRegion exampleDescriptor).relativeOffset = 0x10 ∧
    (resolveModule exampleExtract [] exampleRegion exampleDescriptor).byteRange =
      some (0x1010, 0x1030) := by
  have h := resolveModule_range exampleExtract [] exampleRegion exampleDescriptor
  refine ⟨by decide, ?_, by decide⟩
  rw [h.1]
  decide

/-- Claim C3: with no requested architecture, a container with a single-slice marker
yields its one slice (the whole file), a multi-slice container with a one-entry table
yields that entry, and a multi-slice container with two or more slices fails with
`ArchitectureAmbiguous`. -/
theorem selectSlice_none (c : Container) :
    (c.headerKind = HeaderKind.singleSlice →
      c.slices = [c.wholeFile] ∧ selectSlice none c = Except.ok c.wholeFile) ∧
    (∀ s, c.headerKind = HeaderKind.multiSlice → c.sliceTable = [s] →
      c.slices = [s] ∧ selectSlice none c = Except.ok s) ∧
    (c.headerKind = HeaderKind.multiSlice → 2 ≤ c.sliceTable.length →
      c.slices = c.sliceTable ∧
      selectSlice none c = Except.error SelectionError.ArchitectureAmbiguous) := by
  rcases c with ⟨len, kind, arch, table⟩
  refine ⟨?_, ?_, ?_⟩
  · intro hk
    simp only at hk
    subst hk
    simp [selectSlice, Container.slices]
  · intro s hk ht
    simp only at hk ht
    subst hk ht
    simp [selectSlice, Container.slices]
  · intro hk hn
    simp only at hk hn
    subst hk
    match table, hn with
    | a :: b :: rest, _ => simp [selectSlice, Container.slices]

end KextTools
